import Mathlib

/-!
Shallow embedding of `rasa/shared/core/flows/yaml_flows_io.py`:
the validation-error humanizer (`YAMLFlowsReader.humanize_flow_error`),
the read pipeline (`read_from_string` / `read_from_file`) and the writer
(`YamlFlowsWriter.dumps`), together with theorems about their behaviour.
-/

/-- A YAML/JSON-style value, the shape of the Python objects the module
manipulates (schemas, instances, parsed documents). Floats are not needed
by any code path modelled here. -/
inductive Yaml where
  | null : Yaml
  | bool (b : Bool) : Yaml
  | int (n : Int) : Yaml
  | str (s : String) : Yaml
  | list (l : List Yaml) : Yaml
  | map (m : List (String × Yaml)) : Yaml

/-- Association-list lookup; Python dicts have unique keys, so first match
is the value of the key. `none` models an absent key. -/
def lookupKey : List (String × Yaml) → String → Option Yaml
  | [], _ => none
  | (k', v) :: rest, k => if k' = k then some v else lookupKey rest k

/-- `d.get(k)` on a Python dict (default `None` modelled as `none`). -/
def Yaml.get : Yaml → String → Option Yaml
  | Yaml.map m, k => lookupKey m k
  | _, _ => none

/-- `d.get(k, default)` on a Python dict. -/
def Yaml.getD (y : Yaml) (k : String) (d : Yaml) : Yaml :=
  match y.get k with
  | some v => v
  | none => d

/-- `d.get(k, [])` where the value, when present, is a list
(the shape `oneOf`/`anyOf` keys have in a JSON schema). -/
def Yaml.getList (y : Yaml) (k : String) : List Yaml :=
  match y.get k with
  | some (Yaml.list l) => l
  | _ => []

/-- Python truthiness of a value, as used by `if name := schema_name(schema)`. -/
def yamlTruthy : Yaml → Bool
  | Yaml.null => false
  | Yaml.bool b => b
  | Yaml.int n => n != 0
  | Yaml.str s => s != ""
  | Yaml.list l => !l.isEmpty
  | Yaml.map m => !m.isEmpty

mutual
/-- Python `repr` of a value (which is also `str` for dicts and lists),
modelling `str(error.schema)`. -/
def pyRepr : Yaml → String
  | Yaml.null => "None"
  | Yaml.bool b => if b then "True" else "False"
  | Yaml.int n => toString n
  | Yaml.str s => "'" ++ s ++ "'"
  | Yaml.list l => "[" ++ pyReprList l ++ "]"
  | Yaml.map m => "\x7b" ++ pyReprMap m ++ "\x7d"

/-- Comma-separated reprs of the elements of a Python list. -/
def pyReprList : List Yaml → String
  | [] => ""
  | [x] => pyRepr x
  | x :: xs => pyRepr x ++ ", " ++ pyReprList xs

/-- Comma-separated `'key': value` reprs of the entries of a Python dict. -/
def pyReprMap : List (String × Yaml) → String
  | [] => ""
  | [(k, v)] => "'" ++ k ++ "': " ++ pyRepr v
  | (k, v) :: xs => "'" ++ k ++ "': " ++ pyRepr v ++ ", " ++ pyReprMap xs
end

/-- Python `str` of a value, as an f-string interpolation renders it:
strings are unquoted, everything else as `repr`. -/
def pyStr : Yaml → String
  | Yaml.str s => s
  | v => pyRepr v

/-- f-string rendering of an optional value (`None` renders as "None"). -/
def pyStrOpt : Option Yaml → String
  | none => "None"
  | some v => pyStr v

/-- One segment of a validation-error path (`error.absolute_path`):
either a property name or an integer list index. -/
inductive Seg where
  | str (s : String) : Seg
  | idx (n : Int) : Seg
deriving DecidableEq

/-- How an f-string renders a path segment (`str()` of the underlying value). -/
def renderSeg : Seg → String
  | Seg.str s => s
  | Seg.idx n => toString n

/-- The jsonschema `ValidationError` fields the humanizer reads.
`inst` embeds the Python attribute `instance` (a Lean keyword). -/
structure ValidationError where
  validator : String
  absolute_path : List Seg
  schema : Yaml
  inst : Yaml
  message : String
  json_path : String

/-- `faulty_property` from `humanize_flow_error`: name of the property that
caused the error, derived from the error path. Matching on the reversed
path embeds Python's `path[-1]` / `path[-2]` indexing; the result is the
string the enclosing f-string would render. -/
def faulty_property (path : List Seg) : String :=
  match path.reverse with
  | [] => "schema"
  | Seg.idx _ :: rest =>
    match rest with
    | [] => "list"
    | x :: _ => renderSeg x
  | Seg.str s :: _ => s

/-- `schema_name` from `humanize_flow_error`:
`schema.get("schema_name", schema.get("type"))`. -/
def schema_name (schema : Yaml) : Option Yaml :=
  match schema.get "schema_name" with
  | some v => some v
  | none => schema.get "type"

/-- `schema_names` from `humanize_flow_error`: the truthy names of the
schemas (the walrus `if name := schema_name(schema)` drops falsy names,
e.g. the empty string). -/
def schema_names (schemas : List Yaml) : List Yaml :=
  schemas.filterMap (fun schema =>
    match schema_name schema with
    | some v => if yamlTruthy v then some v else none
    | none => none)

/-- Python `sorted` on a list of strings (insertion sort by code-point
lexicographic order, Python's comparison on strings; same stable sorted
result). -/
def sortStrings (l : List String) : List String :=
  l.insertionSort (fun a b => a.data ≤ b.data)

/-- `expected_schema` from `humanize_flow_error`. Python sorts the name
values themselves and joins them; on string-valued names (the only shape
the schema uses) this equals sorting their rendered forms. -/
def expected_schema (error : ValidationError) (schema_type : String) : String :=
  let expected := schema_names (error.schema.getList schema_type)
  if expected.isEmpty then str (error.schema)
  else String.intercalate " or " (sortStrings (expected.map pyStr))
where
  /-- Python `str(error.schema)`. -/
  str (schema : Yaml) : String := pyRepr schema

/-- `format_oneof_error` from `humanize_flow_error`. -/
def format_oneof_error (error : ValidationError) : String :=
  "Not a valid '" ++ faulty_property error.absolute_path ++
    "' definition. Expected " ++ expected_schema error "oneOf" ++ "."

/-- `format_anyof_error` from `humanize_flow_error`. -/
def format_anyof_error (error : ValidationError) : String :=
  "Not a valid '" ++ faulty_property error.absolute_path ++
    "' definition. Expected " ++ expected_schema error "anyOf" ++ "."

/-- `format_type_error` from `humanize_flow_error`. -/
def format_type_error (error : ValidationError) : String :=
  let expected_value := schema_name error.schema
  let inst : String :=
    match error.inst with
    | Yaml.map _ => "a dictionary"
    | Yaml.list _ => "a list"
    | v => "`" ++ pyStr v ++ "`"
  "Found " ++ inst ++ " but expected a " ++ pyStrOpt expected_value ++ "."

/-- `YAMLFlowsReader.humanize_flow_error`: dispatch on the failing
validator keyword. -/
def humanize_flow_error (error : ValidationError) : String :=
  if error.validator = "oneOf" then format_oneof_error error
  else if error.validator = "anyOf" then format_anyof_error error
  else if error.validator = "type" then format_type_error error
  else if error.validator = "additionalProperties" then error.message
  else if error.validator = "required" then error.message
  else
    "The flow at " ++ error.json_path ++
      " is not valid. Please double check your flow definition."

/-- The top-level key under which flow bodies live (`KEY_FLOWS = "flows"`). -/
def KEY_FLOWS : String := "flows"

/-- Modelled from the spec: a `Flow` (the FlowDocument entity) is opaque to
this module beyond its identifier and its mapping form; the identifier comes
from the outer mapping key, the remaining fields are the body. -/
structure FlowDocument where
  id : String
  body : List (String × Yaml)

/-- Modelled from the spec: `FlowDocument.as_json` (`toMapping`) renders a flow as a
mapping that carries the identifier under the `id` field alongside the body
(the writer removes that redundant field again). -/
def FlowDocument.as_json (f : FlowDocument) : Yaml :=
  Yaml.map (("id", Yaml.str f.id) :: f.body)

/-- The entries of a mapping value (a Python dict's `.items()`). -/
def yamlFields : Yaml → List (String × Yaml)
  | Yaml.map m => m
  | _ => []

/-- Modelled from the spec: `FlowsList.from_json` (`parse`) builds one flow
per entry of the `flows` mapping, taking the identifier from the mapping key
and the body from the mapping value. -/
def FlowsList.from_json : Yaml → List FlowDocument
  | Yaml.map entries => entries.map (fun e => { id := e.1, body := yamlFields e.2 })
  | _ => []

/-- Python dict assignment `d[k] = v`: replace the value of an existing key
in place, else append the new key at the end. -/
def dictUpsert : List (String × Yaml) → String → Yaml → List (String × Yaml)
  | [], k, v => [(k, v)]
  | (k', v') :: rest, k, v =>
    if k' = k then (k, v) :: rest else (k', v') :: dictUpsert rest k v

/-- Python `del d[k]` on a dict (keys are unique, so removing the first
occurrence removes the key). -/
def dictDel : List (String × Yaml) → String → List (String × Yaml)
  | [], _ => []
  | (k', v') :: rest, k =>
    if k' = k then rest else (k', v') :: dictDel rest k

/-- How many entries of the mapping carry the key (0 or 1 for a dict). -/
def countKey : List (String × Yaml) → String → Nat
  | [], _ => 0
  | (k', _) :: rest, k => (if k' = k then 1 else 0) + countKey rest k

/-- How many flows of the list carry the identifier. -/
def countIds : List FlowDocument → String → Nat
  | [], _ => 0
  | f :: rest, k => (if f.id = k then 1 else 0) + countIds rest k

/-- The last flow of the list carrying the identifier, if any. -/
def lastFlowWith : List FlowDocument → String → Option FlowDocument
  | [], _ => none
  | f :: rest, k =>
    match lastFlowWith rest k with
    | some g => some g
    | none => if f.id = k then some f else none

/-- The loop of `YamlFlowsWriter.dumps`: for each flow, take its mapping
form, delete the redundant `id` field, and assign the result to the flow's
identifier in the accumulated dict. -/
def dumpFlowsFrom (acc : List (String × Yaml)) : List FlowDocument → List (String × Yaml)
  | [] => acc
  | flow :: rest =>
    dumpFlowsFrom
      (dictUpsert acc flow.id (Yaml.map (dictDel (yamlFields flow.as_json) "id")))
      rest

/-- `YamlFlowsWriter.dumps`, up to the final text serialization (which is an
external helper): the mapping `{KEY_FLOWS: {id: body}}` handed to the YAML
dumper. -/
def YamlFlowsWriter.dumps (flows : List FlowDocument) : Yaml :=
  Yaml.map [(KEY_FLOWS, Yaml.map (dumpFlowsFrom [] flows))]

/-- Modelled from the spec: the error taxonomy around `read_from_file`.
`YamlException` is the markup/schema error class carrying an optional source
filename and, when it wraps another failure, that failure as its cause
(`raise YamlException(filename) from e`). -/
structure YamlException where
  filename : Option String
  message : String
  cause : Option String

/-- Modelled from the spec: the classes of failure `read_from_file`
distinguishes — markup/schema errors (`YamlException`), other domain
failures (`RasaException`), and non-domain failures (IO, encoding) that
match neither handler. -/
inductive ReadError where
  | yamlException (e : YamlException) : ReadError
  | rasaException (message : String) : ReadError
  | ioError (message : String) : ReadError

/-- The external collaborators of the read pipeline, abstracted: the
jsonschema validation helper, the YAML parser, and the semantic validation
of the built flows (`FlowsList.validate`). -/
structure ReaderEnv where
  validate_yaml_with_jsonschema : String → Except ReadError Unit
  read_yaml : String → Except ReadError Yaml
  validate_flows : List FlowDocument → Except ReadError Unit

/-- The observable stages of `read_from_string`, recorded in order so the
theorems can speak about which stages a call performs. -/
inductive Stage where
  | schemaValidation : Stage
  | yamlParse : Stage
  | buildFlows : Stage
  | semanticValidation : Stage
deriving DecidableEq

/-- `YAMLFlowsReader.read_from_string`, instrumented with the list of stages
it performs: optional jsonschema validation, YAML parsing, building the
flows from the `flows` key (defaulting to an empty mapping), optional
semantic validation. -/
def read_from_string (env : ReaderEnv) (string : String) (skip_validation : Bool) :
    Except ReadError (List FlowDocument) × List Stage :=
  let validated : Except ReadError Unit × List Stage :=
    if !skip_validation then
      (env.validate_yaml_with_jsonschema string, [Stage.schemaValidation])
    else (Except.ok (), [])
  match validated with
  | (Except.error e, trace) => (Except.error e, trace)
  | (Except.ok _, trace) =>
    match env.read_yaml string with
    | Except.error e => (Except.error e, trace ++ [Stage.yamlParse])
    | Except.ok yaml_content =>
      let flows := FlowsList.from_json (yaml_content.getD KEY_FLOWS (Yaml.map []))
      let trace2 := trace ++ [Stage.yamlParse, Stage.buildFlows]
      if !skip_validation then
        match env.validate_flows flows with
        | Except.error e => (Except.error e, trace2 ++ [Stage.semanticValidation])
        | Except.ok _ => (Except.ok flows, trace2 ++ [Stage.semanticValidation])
      else (Except.ok flows, trace2)

/-- The body of the `try` block of `read_from_file`: read the file text
(abstracted as an already-produced result) and delegate to
`read_from_string`. -/
def read_attempt (env : ReaderEnv) (file_read : Except ReadError String)
    (skip_validation : Bool) : Except ReadError (List FlowDocument) :=
  match file_read with
  | Except.error e => Except.error e
  | Except.ok s => (read_from_string env s skip_validation).1

/-- `YAMLFlowsReader.read_from_file`: run the attempt; re-raise a
`YamlException` with its `filename` set to the given path; wrap any other
`RasaException` into a `YamlException(filename)` whose cause is the original
failure; anything else matches neither handler and propagates unchanged. -/
def read_from_file (env : ReaderEnv) (file_read : Except ReadError String)
    (filename : String) (skip_validation : Bool) : Except ReadError (List FlowDocument) :=
  match read_attempt env file_read skip_validation with
  | Except.ok flows => Except.ok flows
  | Except.error (ReadError.yamlException e) =>
    Except.error (ReadError.yamlException { e with filename := some filename })
  | Except.error (ReadError.rasaException m) =>
    Except.error (ReadError.yamlException
      { filename := some filename, message := "", cause := some m })
  | Except.error (ReadError.ioError m) =>
    Except.error (ReadError.ioError m)

/-! ## Helper lemmas -/

theorem pyStr_str (s : String) : pyStr (Yaml.str s) = s := rfl

theorem faulty_property_append_idx (p : List Seg) (x : Seg) (n : Int) :
    faulty_property (p ++ [x, Seg.idx n]) = renderSeg x := by
  simp [faulty_property, List.reverse_append]

theorem faulty_property_append_str (p : List Seg) (s : String) :
    faulty_property (p ++ [Seg.str s]) = s := by
  simp [faulty_property, List.reverse_append]

theorem schema_names_of_named (alts : List Yaml) (names : List String)
    (h : List.Forall₂
      (fun a n => Yaml.get a "schema_name" = some (Yaml.str n) ∧ n ≠ "") alts names) :
    schema_names alts = names.map Yaml.str := by
  induction h with
  | nil => rfl
  | cons hr _ ih =>
    obtain ⟨hget, hne⟩ := hr
    simp [schema_names, List.filterMap_cons, schema_name, hget, yamlTruthy, hne]
    simpa [schema_names] using ih

/-- Decompose a list ending in a given element and of length at least two. -/
theorem exists_append_pair_of_getLast? (path : List Seg) (a : Seg)
    (hlast : path.getLast? = some a) (hlen : 2 ≤ path.length) :
    ∃ (q : List Seg) (x : Seg), path = q ++ [x, a] := by
  rcases hr : path.reverse with _ | ⟨b, t⟩
  · rw [List.reverse_eq_nil_iff] at hr
    subst hr; simp at hlen
  · have hpath : path = t.reverse ++ [b] := by
      rw [← List.reverse_reverse path, hr]; simp
    have hb : b = a := by
      rw [hpath, List.getLast?_append_cons] at hlast
      simpa using hlast
    subst hb
    rcases ht : t with _ | ⟨c, t2⟩
    · subst ht; rw [hpath] at hlen; simp at hlen
    · subst ht
      refine ⟨t2.reverse, c, ?_⟩
      rw [hpath]; simp

theorem dictDel_as_json (f : FlowDocument) :
    dictDel (yamlFields f.as_json) "id" = f.body := by
  simp [FlowDocument.as_json, yamlFields, dictDel]

theorem lookupKey_append (l1 l2 : List (String × Yaml)) (k : String) :
    lookupKey (l1 ++ l2) k =
      match lookupKey l1 k with
      | some v => some v
      | none => lookupKey l2 k := by
  induction l1 with
  | nil => rfl
  | cons e rest ih =>
    by_cases h : e.1 = k
    · simp [lookupKey, h]
    · simp [lookupKey, h, ih]

theorem dictUpsert_of_lookup_none (m : List (String × Yaml)) (k : String) (v : Yaml)
    (h : lookupKey m k = none) : dictUpsert m k v = m ++ [(k, v)] := by
  induction m with
  | nil => rfl
  | cons e rest ih =>
    by_cases he : e.1 = k
    · simp [lookupKey, he] at h
    · simp [lookupKey, he] at h
      simp [dictUpsert, he, ih h]

theorem lookupKey_dictUpsert (m : List (String × Yaml)) (k : String) (v : Yaml)
    (q : String) :
    lookupKey (dictUpsert m k v) q =
      if k = q then some v else lookupKey m q := by
  induction m with
  | nil => simp [dictUpsert, lookupKey]
  | cons e rest ih =>
    by_cases he : e.1 = k
    · by_cases hq : k = q
      · simp [dictUpsert, he, lookupKey, hq]
      · have : ¬ e.1 = q := by rw [he]; exact hq
        simp [dictUpsert, he, lookupKey, hq, this]
    · by_cases heq : e.1 = q
      · have hkq : ¬ k = q := fun h => he (heq.trans h.symm)
        have hqk : ¬ q = k := fun h => hkq h.symm
        simp [dictUpsert, he, lookupKey, heq, hkq, hqk]
      · simp [dictUpsert, he, lookupKey, heq, ih]

theorem countKey_dictUpsert_ne (m : List (String × Yaml)) (k : String) (v : Yaml)
    (q : String) (h : k ≠ q) :
    countKey (dictUpsert m k v) q = countKey m q := by
  induction m with
  | nil => simp [dictUpsert, countKey, h]
  | cons e rest ih =>
    by_cases he : e.1 = k
    · simp [dictUpsert, he, countKey, h]
    · simp [dictUpsert, he, countKey, ih]

theorem countKey_dictUpsert_self (m : List (String × Yaml)) (k : String) (v : Yaml) :
    countKey (dictUpsert m k v) k = max (countKey m k) 1 := by
  induction m with
  | nil => simp [dictUpsert, countKey]
  | cons e rest ih =>
    by_cases he : e.1 = k
    · simp [dictUpsert, he, countKey]
    · simp [dictUpsert, he, countKey, ih]

theorem countKey_dumpFlowsFrom_le (flows : List FlowDocument) :
    ∀ (acc : List (String × Yaml)) (q : String), countKey acc q ≤ 1 →
      countKey (dumpFlowsFrom acc flows) q ≤ 1 := by
  induction flows with
  | nil => intro acc q h; exact h
  | cons f rest ih =>
    intro acc q h
    rw [dumpFlowsFrom]
    apply ih
    by_cases hq : f.id = q
    · subst hq
      rw [countKey_dictUpsert_self]
      omega
    · rw [countKey_dictUpsert_ne _ _ _ _ hq]
      exact h

theorem lastFlowWith_id (flows : List FlowDocument) (q : String) (g : FlowDocument)
    (h : lastFlowWith flows q = some g) : g.id = q := by
  induction flows with
  | nil => simp [lastFlowWith] at h
  | cons f rest ih =>
    rw [lastFlowWith] at h
    cases hrest : lastFlowWith rest q with
    | some g' =>
      rw [hrest] at h
      exact ih ((Option.some.inj h) ▸ hrest)
    | none =>
      rw [hrest] at h
      by_cases hf : f.id = q
      · simp [hf] at h
        rw [← h]; exact hf
      · simp [hf] at h

theorem countIds_of_lastFlowWith_none (flows : List FlowDocument) (q : String)
    (h : lastFlowWith flows q = none) : countIds flows q = 0 := by
  induction flows with
  | nil => rfl
  | cons f rest ih =>
    rw [lastFlowWith] at h
    cases hrest : lastFlowWith rest q with
    | some g' => rw [hrest] at h; exact absurd h (by simp)
    | none =>
      rw [hrest] at h
      by_cases hf : f.id = q
      · simp [hf] at h
      · simp [countIds, hf, ih hrest]

theorem lastFlowWith_of_countIds (flows : List FlowDocument) (q : String)
    (h : 1 ≤ countIds flows q) :
    ∃ g, lastFlowWith flows q = some g ∧ g.id = q := by
  cases hl : lastFlowWith flows q with
  | some g => exact ⟨g, rfl, lastFlowWith_id flows q g hl⟩
  | none =>
    rw [countIds_of_lastFlowWith_none flows q hl] at h
    omega

theorem lookupKey_dumpFlowsFrom (flows : List FlowDocument) :
    ∀ (acc : List (String × Yaml)) (q : String),
      lookupKey (dumpFlowsFrom acc flows) q =
        match lastFlowWith flows q with
        | some g => some (Yaml.map g.body)
        | none => lookupKey acc q := by
  induction flows with
  | nil => intro acc q; rfl
  | cons f rest ih =>
    intro acc q
    rw [dumpFlowsFrom, dictDel_as_json, ih, lastFlowWith]
    cases hrest : lastFlowWith rest q with
    | some g => rfl
    | none =>
      rw [lookupKey_dictUpsert]
      by_cases hf : f.id = q
      · simp [hf]
      · simp [hf]

theorem le_countKey_of_lookupKey (m : List (String × Yaml)) (q : String) (v : Yaml)
    (h : lookupKey m q = some v) : 1 ≤ countKey m q := by
  induction m with
  | nil => simp [lookupKey] at h
  | cons e rest ih =>
    by_cases he : e.1 = q
    · simp [countKey, he]
    · rw [lookupKey] at h
      simp [he] at h
      have := ih h
      simp [countKey, he]
      omega

theorem dumpFlowsFrom_nodup (flows : List FlowDocument) :
    ∀ acc : List (String × Yaml),
      (flows.map FlowDocument.id).Nodup →
      (∀ f ∈ flows, lookupKey acc f.id = none) →
      dumpFlowsFrom acc flows =
        acc ++ flows.map (fun f => (f.id, Yaml.map f.body)) := by
  induction flows with
  | nil => intro acc _ _; simp [dumpFlowsFrom]
  | cons f rest ih =>
    intro acc hnodup hacc
    rw [dumpFlowsFrom, dictDel_as_json,
      dictUpsert_of_lookup_none acc f.id _ (hacc f (by simp)),
      ih (acc ++ [(f.id, Yaml.map f.body)]) (List.Nodup.of_cons hnodup) ?_]
    · simp
    · intro g hg
      rw [lookupKey_append]
      rw [hacc g (by simp [hg])]
      have hne : g.id ≠ f.id := by
        intro hcontra
        have hmem : f.id ∈ rest.map FlowDocument.id :=
          hcontra ▸ List.mem_map_of_mem FlowDocument.id hg
        exact (List.nodup_cons.mp hnodup).1 hmem
      have hne' : ¬ f.id = g.id := fun h => hne h.symm
      simp [lookupKey, hne']

theorem from_json_map_bodies (flows : List FlowDocument) :
    FlowsList.from_json
      (Yaml.map (flows.map (fun f => (f.id, Yaml.map f.body)))) = flows := by
  induction flows with
  | nil => rfl
  | cons f rest ih =>
    simp only [FlowsList.from_json, List.map_map, List.map_cons] at ih ⊢
    rw [List.cons_eq_cons] at *
    exact ⟨rfl, ih⟩

/-! ## Claim theorems -/

/-- C2 counterexample: for the path `steps.0.1` (an element of a nested
list), the code returns the rendering of `path[-2]`, which is the integer
index `0`, not the last non-integer segment `steps`. -/
theorem faulty_property_nested_index_counterexample :
    faulty_property [Seg.str "steps", Seg.idx 0, Seg.idx 1] = "0" ∧
    faulty_property [Seg.str "steps", Seg.idx 0, Seg.idx 1] ≠ "steps" := by
  exact ⟨rfl, by decide⟩

/-- C2 (amended): the faulty-property name is the last path segment when
that segment is not an integer index; when the path ends in an integer
index, it is the rendering of the segment just before it — whatever that
segment is, including another integer index — defaulting to the literal
"list" when the path is a single index, and an empty path yields "schema". -/
theorem faulty_property_amended :
    faulty_property [] = "schema" ∧
    (∀ n : Int, faulty_property [Seg.idx n] = "list") ∧
    (∀ (p : List Seg) (x : Seg) (n : Int),
      faulty_property (p ++ [x, Seg.idx n]) = renderSeg x) ∧
    (∀ (p : List Seg) (s : String), faulty_property (p ++ [Seg.str s]) = s) :=
  ⟨rfl, fun _ => rfl, faulty_property_append_idx, faulty_property_append_str⟩

/-- A schema carrying an empty `schema_name` next to a `type`. -/
def emptyNameSchema : Yaml :=
  Yaml.map [("schema_name", Yaml.str ""), ("type", Yaml.str "array")]

/-- A schema carrying only a `type`. -/
def typeOnlySchema : Yaml := Yaml.map [("type", Yaml.str "object")]

/-- C3 counterexample: for a schema with `schema_name` present but equal to
the empty string and a `type` present, `schema_name` returns the empty
string, not the type — `dict.get` only falls back on an absent key. -/
theorem schema_name_empty_counterexample :
    schema_name emptyNameSchema = some (Yaml.str "") ∧
    schema_name emptyNameSchema ≠ some (Yaml.str "array") := by
  refine ⟨rfl, fun h => ?_⟩
  have h' : some (Yaml.str "") = some (Yaml.str "array") := h
  exact absurd (Yaml.str.inj (Option.some.inj h')) (by decide)

/-- C3 (amended): `schema_name` returns the value under the `schema_name`
key whenever that key is present — even when the value is the empty
string — otherwise the value under `type` (absent keys giving no name);
empty names are only dropped later, by `schema_names`. -/
theorem schema_name_lookup_spec :
    (∀ (s v : Yaml), s.get "schema_name" = some v → schema_name s = some v) ∧
    (∀ s : Yaml, s.get "schema_name" = none → schema_name s = s.get "type") ∧
    (∀ (a : Yaml) (alts : List Yaml), schema_name a = some (Yaml.str "") →
      schema_names (a :: alts) = schema_names alts) := by
  refine ⟨fun s v h => ?_, fun s h => ?_, fun a alts h => ?_⟩
  · simp [schema_name, h]
  · simp [schema_name, h]
  · simp [schema_names, List.filterMap_cons, h, yamlTruthy]

/-- C3 witness: concrete instantiations of `schema_name_lookup_spec`. -/
theorem schema_name_lookup_spec_witness :
    schema_name emptyNameSchema = some (Yaml.str "") ∧
    schema_name typeOnlySchema = some (Yaml.str "object") ∧
    schema_names [emptyNameSchema] = [] :=
  ⟨schema_name_lookup_spec.1 emptyNameSchema (Yaml.str "") rfl,
   (schema_name_lookup_spec.2.1 typeOnlySchema rfl).trans rfl,
   (schema_name_lookup_spec.2.2 emptyNameSchema [] rfl).trans rfl⟩

/-- C4: `faulty_property` maps the empty path to "schema"; a path ending in
an integer index to the second-to-last segment (rendered) when the path has
at least two segments and to the literal "list" when it is that single
index; and any other path to its last segment; including the two spec
examples. -/
theorem faulty_property_cases :
    faulty_property [] = "schema" ∧
    (∀ (path : List Seg) (n : Int), path.getLast? = some (Seg.idx n) →
      path.length = 1 → faulty_property path = "list") ∧
    (∀ (path : List Seg) (n : Int), path.getLast? = some (Seg.idx n) →
      2 ≤ path.length →
      ∃ x, path.drop (path.length - 2) = [x, Seg.idx n] ∧
        faulty_property path = renderSeg x) ∧
    (∀ (path : List Seg) (s : String), path.getLast? = some (Seg.str s) →
      faulty_property path = s) ∧
    faulty_property
      [Seg.str "flows", Seg.str "x", Seg.str "steps", Seg.idx 0, Seg.str "next"] =
      "next" ∧
    faulty_property [Seg.str "flows", Seg.str "x", Seg.str "steps", Seg.idx 2] =
      "steps" := by
  refine ⟨rfl, fun path n hlast hlen => ?_, fun path n hlast hlen => ?_,
    fun path s hlast => ?_, rfl, rfl⟩
  · match path, hlen with
    | [a], _ =>
      have ha : a = Seg.idx n := by simpa using hlast
      subst ha; rfl
  · obtain ⟨q, x, hq⟩ := exists_append_pair_of_getLast? path (Seg.idx n) hlast hlen
    subst hq
    refine ⟨x, ?_, faulty_property_append_idx q x n⟩
    have hl : (q ++ [x, Seg.idx n]).length - 2 = q.length := by
      simp
    rw [hl]
    exact List.drop_left q [x, Seg.idx n]
  · rcases hr : path.reverse with _ | ⟨b, t⟩
    · rw [List.reverse_eq_nil_iff] at hr
      subst hr; simp at hlast
    · have hpath : path = t.reverse ++ [b] := by
        rw [← List.reverse_reverse path, hr]; simp
      have hb : b = Seg.str s := by
        rw [hpath, List.getLast?_append_cons] at hlast
        simpa using hlast
      subst hb
      rw [hpath]
      exact faulty_property_append_str t.reverse s

/-- C4 witness: concrete instantiations of `faulty_property_cases`. -/
theorem faulty_property_cases_witness :
    (∃ x, ([Seg.str "steps", Seg.idx 2] : List Seg).drop
        (([Seg.str "steps", Seg.idx 2] : List Seg).length - 2) = [x, Seg.idx 2] ∧
      faulty_property [Seg.str "steps", Seg.idx 2] = renderSeg x) ∧
    faulty_property [Seg.idx 5] = "list" ∧
    faulty_property [Seg.str "flows", Seg.str "greet"] = "greet" :=
  ⟨faulty_property_cases.2.2.1 [Seg.str "steps", Seg.idx 2] 2 rfl (by decide),
   faulty_property_cases.2.1 [Seg.idx 5] 5 rfl rfl,
   faulty_property_cases.2.2.2.1 [Seg.str "flows", Seg.str "greet"] "greet" rfl⟩

/-- C5: for a type-mismatch failure the message is
"Found <classification> but expected a <name>." where a mapping instance is
classified "a dictionary", a sequence "a list", and anything else is the
value in backticks; in particular a mapping instance yields a message
starting with "Found a dictionary but expected a ". -/
theorem format_type_messages (e : ValidationError) (h : e.validator = "type") :
    humanize_flow_error e =
      "Found " ++
        (match e.inst with
          | Yaml.map _ => "a dictionary"
          | Yaml.list _ => "a list"
          | v => "`" ++ pyStr v ++ "`") ++
        " but expected a " ++ pyStrOpt (schema_name e.schema) ++ "." ∧
    (∀ m, e.inst = Yaml.map m →
      ∃ rest, humanize_flow_error e = "Found a dictionary but expected a " ++ rest) := by
  have hmain : humanize_flow_error e =
      "Found " ++
        (match e.inst with
          | Yaml.map _ => "a dictionary"
          | Yaml.list _ => "a list"
          | v => "`" ++ pyStr v ++ "`") ++
        " but expected a " ++ pyStrOpt (schema_name e.schema) ++ "." := by
    simp [humanize_flow_error, h, format_type_error]
  refine ⟨hmain, fun m hm => ?_⟩
  refine ⟨pyStrOpt (schema_name e.schema) ++ ".", ?_⟩
  rw [hmain, hm]
  rw [String.append_assoc]
  rfl

/-- A concrete type-mismatch failure whose instance is a mapping. -/
def typeErrorExample : ValidationError :=
  { validator := "type"
    absolute_path := [Seg.str "flows", Seg.str "greet", Seg.str "steps"]
    schema := Yaml.map [("type", Yaml.str "array"), ("schema_name", Yaml.str "list of steps")]
    inst := Yaml.map [("action", Yaml.str "utter_greet")]
    message := ""
    json_path := "$.flows.greet.steps" }

/-- C5 witness: `format_type_messages` at `typeErrorExample`. -/
theorem format_type_messages_witness :
    ∃ rest, humanize_flow_error typeErrorExample =
      "Found a dictionary but expected a " ++ rest :=
  (format_type_messages typeErrorExample rfl).2 [("action", Yaml.str "utter_greet")] rfl

/-- C6: `additionalProperties` and `required` failures pass the validator's
own message through verbatim, and every keyword outside the handled set
gets the generic fallback naming the document path. -/
theorem humanize_passthrough_fallback (e : ValidationError) :
    (e.validator = "additionalProperties" → humanize_flow_error e = e.message) ∧
    (e.validator = "required" → humanize_flow_error e = e.message) ∧
    (e.validator ≠ "oneOf" → e.validator ≠ "anyOf" → e.validator ≠ "type" →
      e.validator ≠ "additionalProperties" → e.validator ≠ "required" →
      humanize_flow_error e =
        "The flow at " ++ e.json_path ++
          " is not valid. Please double check your flow definition.") := by
  refine ⟨fun h => ?_, fun h => ?_, fun h1 h2 h3 h4 h5 => ?_⟩
  · simp [humanize_flow_error, h]
  · simp [humanize_flow_error, h]
  · simp [humanize_flow_error, h1, h2, h3, h4, h5]

/-- A concrete extra-property failure. -/
def extraPropError : ValidationError :=
  { validator := "additionalProperties"
    absolute_path := [Seg.str "flows", Seg.str "greet"]
    schema := Yaml.map []
    inst := Yaml.null
    message := "Additional properties are not allowed ('foo' was unexpected)"
    json_path := "$.flows.greet" }

/-- A concrete missing-required-property failure. -/
def requiredError : ValidationError :=
  { validator := "required"
    absolute_path := [Seg.str "flows", Seg.str "greet"]
    schema := Yaml.map []
    inst := Yaml.null
    message := "'steps' is a required property"
    json_path := "$.flows.greet" }

/-- A failure with a keyword outside the handled set. -/
def unknownKeywordError : ValidationError :=
  { validator := "maxProperties"
    absolute_path := [Seg.str "flows", Seg.str "greet"]
    schema := Yaml.map []
    inst := Yaml.null
    message := "too many properties"
    json_path := "$.flows.greet" }

/-- C6 witness: `humanize_passthrough_fallback` at three concrete failures. -/
theorem humanize_passthrough_fallback_witness :
    humanize_flow_error extraPropError = extraPropError.message ∧
    humanize_flow_error requiredError = requiredError.message ∧
    humanize_flow_error unknownKeywordError =
      "The flow at $.flows.greet is not valid. Please double check your flow definition." := by
  refine ⟨(humanize_passthrough_fallback extraPropError).1 rfl,
    (humanize_passthrough_fallback requiredError).2.1 rfl, ?_⟩
  have h := (humanize_passthrough_fallback unknownKeywordError).2.2
    (by decide) (by decide) (by decide) (by decide) (by decide)
  rw [h]
  rfl

/-- A one-of failure whose alternatives are named `b`, `a`, `a` —
two alternatives declare the same name. -/
def dupOneofError : ValidationError :=
  { validator := "oneOf"
    absolute_path := [Seg.str "flows", Seg.str "x", Seg.str "steps"]
    schema := Yaml.map [("oneOf", Yaml.list
      [Yaml.map [("schema_name", Yaml.str "b")],
       Yaml.map [("schema_name", Yaml.str "a")],
       Yaml.map [("schema_name", Yaml.str "a")]])]
    inst := Yaml.null
    message := ""
    json_path := "$.flows.x.steps" }

/-- C1 counterexample: with alternatives named `b`, `a`, `a`, the message
keeps the duplicate (`a or a or b`); it is not the deduplicated `a or b`
the claim demands. -/
theorem oneof_alternatives_dedup_counterexample :
    humanize_flow_error dupOneofError =
      "Not a valid 'steps' definition. Expected a or a or b." ∧
    humanize_flow_error dupOneofError ≠
      "Not a valid 'steps' definition. Expected a or b." := by
  exact ⟨rfl, by decide⟩

/-- C1 (amended): for a one-of/any-of failure whose alternatives all
declare a non-empty `schema_name`, the alternative list in the humanized
message is the lexicographically sorted list of those names — duplicates
retained, not removed — joined by " or "; when no alternative yields a
name, `expected_schema` falls back to the raw textual rendering of the
schema. -/
theorem oneof_anyof_alternatives :
    (∀ (e : ValidationError) (kw : String) (alts : List Yaml) (names : List String),
      e.schema.getList kw = alts →
      List.Forall₂
        (fun a n => Yaml.get a "schema_name" = some (Yaml.str n) ∧ n ≠ "") alts names →
      names ≠ [] →
      expected_schema e kw = String.intercalate " or " (sortStrings names) ∧
      (sortStrings names).Perm names ∧
      (sortStrings names).Sorted (fun a b => a.data ≤ b.data) ∧
      ((e.validator = "oneOf" ∧ kw = "oneOf") ∨
          (e.validator = "anyOf" ∧ kw = "anyOf") →
        humanize_flow_error e =
          "Not a valid '" ++ faulty_property e.absolute_path ++
            "' definition. Expected " ++
            String.intercalate " or " (sortStrings names) ++ ".")) ∧
    (∀ (e : ValidationError) (kw : String),
      schema_names (e.schema.getList kw) = [] →
      expected_schema e kw = pyRepr e.schema) := by
  constructor
  · intro e kw alts names halts hnamed hne
    have hnames : schema_names (e.schema.getList kw) = names.map Yaml.str := by
      rw [halts]; exact schema_names_of_named alts names hnamed
    have hmap : ∀ l : List String, (l.map Yaml.str).map pyStr = l := by
      intro l
      induction l with
      | nil => rfl
      | cons a t ih => simp [pyStr_str, ih]
    have hexp : expected_schema e kw =
        String.intercalate " or " (sortStrings names) := by
      rw [expected_schema, hnames]
      have hemp : (names.map Yaml.str).isEmpty = false := by
        cases names with
        | nil => exact absurd rfl hne
        | cons a t => rfl
      rw [hemp]
      simp [hmap]
    haveI : IsTotal String (fun a b => a.data ≤ b.data) :=
      ⟨fun a b => le_total a.data b.data⟩
    haveI : IsTrans String (fun a b => a.data ≤ b.data) :=
      ⟨fun _ _ _ h1 h2 => le_trans h1 h2⟩
    refine ⟨hexp, List.perm_insertionSort _ names,
      List.sorted_insertionSort _ names, fun hdisp => ?_⟩
    rcases hdisp with ⟨hv, hkw⟩ | ⟨hv, hkw⟩
    · subst hkw
      rw [humanize_flow_error, if_pos hv, format_oneof_error, hexp]
    · subst hkw
      rw [humanize_flow_error, if_neg (by rw [hv]; decide), if_pos hv,
        format_anyof_error, hexp]
  · intro e kw hempty
    rw [expected_schema, hempty]
    rfl

/-- A one-of failure with named alternatives `b`, `a`. -/
def oneofNamesError : ValidationError :=
  { validator := "oneOf"
    absolute_path := [Seg.str "flows", Seg.str "transfer", Seg.str "steps"]
    schema := Yaml.map [("oneOf", Yaml.list
      [Yaml.map [("schema_name", Yaml.str "b")],
       Yaml.map [("schema_name", Yaml.str "a")]])]
    inst := Yaml.null
    message := ""
    json_path := "$.flows.transfer.steps" }

/-- A one-of failure whose single alternative declares no name at all. -/
def namelessOneofError : ValidationError :=
  { validator := "oneOf"
    absolute_path := []
    schema := Yaml.map [("oneOf", Yaml.list [Yaml.map []])]
    inst := Yaml.null
    message := ""
    json_path := "$" }

/-- C1 witness: `oneof_anyof_alternatives` at concrete failures (named and
nameless alternatives). -/
theorem oneof_anyof_alternatives_witness :
    humanize_flow_error oneofNamesError =
      "Not a valid 'steps' definition. Expected a or b." ∧
    expected_schema namelessOneofError "oneOf" = pyRepr namelessOneofError.schema := by
  constructor
  · have h := oneof_anyof_alternatives.1 oneofNamesError "oneOf"
      [Yaml.map [("schema_name", Yaml.str "b")],
       Yaml.map [("schema_name", Yaml.str "a")]]
      ["b", "a"] rfl
      (List.Forall₂.cons ⟨rfl, by decide⟩
        (List.Forall₂.cons ⟨rfl, by decide⟩ List.Forall₂.nil))
      (by decide)
    have h4 := h.2.2.2 (Or.inl ⟨rfl, rfl⟩)
    rw [h4]
    rfl
  · exact oneof_anyof_alternatives.2 namelessOneofError "oneOf" rfl

/-- C7: with `skip_validation` set, `read_from_string` performs neither the
jsonschema stage nor the semantic stage but still parses the text and
builds the flows from the `flows` key (defaulting to an empty mapping);
with `skip_validation` unset both validation stages run around the same
parse-and-build steps. -/
theorem read_from_string_stages (env : ReaderEnv) (s : String) (y : Yaml)
    (hparse : env.read_yaml s = Except.ok y) :
    (read_from_string env s true =
      (Except.ok (FlowsList.from_json (y.getD KEY_FLOWS (Yaml.map []))),
       [Stage.yamlParse, Stage.buildFlows])) ∧
    (env.validate_yaml_with_jsonschema s = Except.ok () →
      env.validate_flows (FlowsList.from_json (y.getD KEY_FLOWS (Yaml.map []))) =
        Except.ok () →
      read_from_string env s false =
        (Except.ok (FlowsList.from_json (y.getD KEY_FLOWS (Yaml.map []))),
         [Stage.schemaValidation, Stage.yamlParse, Stage.buildFlows,
          Stage.semanticValidation])) := by
  constructor
  · simp [read_from_string, hparse]
  · intro h1 h2
    simp [read_from_string, hparse, h1, h2]

/-- An environment whose validators fail loudly: a run that touches either
validation stage cannot return these results. -/
def skipEnv : ReaderEnv :=
  { validate_yaml_with_jsonschema := fun _ =>
      Except.error (ReadError.rasaException "schema validation must not run")
    read_yaml := fun _ => Except.ok (Yaml.map [])
    validate_flows := fun _ =>
      Except.error (ReadError.rasaException "semantic validation must not run") }

/-- C7 witness: `read_from_string_stages` with failing validators and a
document without a `flows` key — skipping yields the parsed (empty) flows
and only the parse/build stages. -/
theorem read_from_string_stages_witness :
    read_from_string skipEnv "flows:" true =
      (Except.ok (FlowsList.from_json ((Yaml.map []).getD KEY_FLOWS (Yaml.map []))),
       [Stage.yamlParse, Stage.buildFlows]) :=
  (read_from_string_stages skipEnv "flows:" (Yaml.map []) rfl).1

/-- C8: `read_from_file` re-raises a markup/schema (`YamlException`)
failure with its `filename` set to the given path, wraps any other domain
(`RasaException`) failure into a `YamlException` for that path with the
original failure as its cause, and succeeds exactly when the underlying
attempt succeeds — no failure is silently swallowed. -/
theorem read_from_file_error_classification (env : ReaderEnv)
    (file_read : Except ReadError String) (filename : String) (skip : Bool) :
    (∀ e, read_attempt env file_read skip = Except.error (ReadError.yamlException e) →
      read_from_file env file_read filename skip =
        Except.error (ReadError.yamlException { e with filename := some filename })) ∧
    (∀ m, read_attempt env file_read skip = Except.error (ReadError.rasaException m) →
      read_from_file env file_read filename skip =
        Except.error (ReadError.yamlException
          { filename := some filename, message := "", cause := some m })) ∧
    (∀ flows, read_from_file env file_read filename skip = Except.ok flows ↔
      read_attempt env file_read skip = Except.ok flows) := by
  refine ⟨fun e he => ?_, fun m hm => ?_, fun flows => ?_⟩
  · rw [read_from_file, he]
  · rw [read_from_file, hm]
  · cases h : read_attempt env file_read skip with
    | ok v => simp [read_from_file, h]
    | error err => cases err <;> simp [read_from_file, h]

/-- C8 witness: `read_from_file_error_classification` at a wrapped domain
failure and at a re-annotated markup failure. -/
theorem read_from_file_error_classification_witness :
    read_from_file skipEnv
        (Except.error (ReadError.rasaException "utf-8 decode failure"))
        "flows.yml" false =
      Except.error (ReadError.yamlException
        { filename := some "flows.yml", message := "",
          cause := some "utf-8 decode failure" }) ∧
    read_from_file skipEnv
        (Except.error (ReadError.yamlException
          { filename := none, message := "bad yaml", cause := none }))
        "flows.yml" false =
      Except.error (ReadError.yamlException
        { filename := some "flows.yml", message := "bad yaml", cause := none }) :=
  ⟨(read_from_file_error_classification skipEnv _ "flows.yml" false).2.1
      "utf-8 decode failure" rfl,
   (read_from_file_error_classification skipEnv _ "flows.yml" false).1
      { filename := none, message := "bad yaml", cause := none } rfl⟩

/-- C9: round-trip law — for flows with pairwise distinct identifiers,
reading back the writer's output (through a parser that inverts the
serializer, with both validation stages passing) yields the same flows:
the writer keys each body by the flow's identifier, drops the redundant
`id` field, and wraps everything under the `flows` key, which is exactly
what the reader unfolds again. -/
theorem read_write_roundtrip (env : ReaderEnv) (flows : List FlowDocument)
    (text : String)
    (hids : (flows.map FlowDocument.id).Nodup)
    (hparse : env.read_yaml text = Except.ok (YamlFlowsWriter.dumps flows))
    (hschema : env.validate_yaml_with_jsonschema text = Except.ok ())
    (hsem : env.validate_flows flows = Except.ok ()) :
    (read_from_string env text false).1 = Except.ok flows := by
  have hflows : FlowsList.from_json
      ((YamlFlowsWriter.dumps flows).getD KEY_FLOWS (Yaml.map [])) = flows := by
    have hget : (YamlFlowsWriter.dumps flows).getD KEY_FLOWS (Yaml.map []) =
        Yaml.map (dumpFlowsFrom [] flows) := by
      rw [YamlFlowsWriter.dumps]
      rfl
    rw [hget, dumpFlowsFrom_nodup flows [] hids (fun _ _ => rfl), List.nil_append]
    exact from_json_map_bodies flows
  simp [read_from_string, hparse, hschema, hflows, hsem]

/-- A one-flow document used to exercise the round trip. -/
def roundtripFlows : List FlowDocument :=
  [{ id := "greet"
     body := [("steps", Yaml.list [Yaml.map [("action", Yaml.str "utter_greet")]])] }]

/-- An environment that accepts everything and parses the serialized
round-trip document back to its mapping form. -/
def roundtripEnv : ReaderEnv :=
  { validate_yaml_with_jsonschema := fun _ => Except.ok ()
    read_yaml := fun _ => Except.ok (YamlFlowsWriter.dumps roundtripFlows)
    validate_flows := fun _ => Except.ok () }

/-- C9 witness: `read_write_roundtrip` at a concrete one-flow document. -/
theorem read_write_roundtrip_witness :
    (read_from_string roundtripEnv "serialized flows document" false).1 =
      Except.ok roundtripFlows :=
  read_write_roundtrip roundtripEnv roundtripFlows "serialized flows document"
    (by decide) rfl rfl rfl

/-- C10: when at least two flows share an identifier, the dumped mapping
holds exactly one entry under that identifier, and its value is the body of
the last such flow (each earlier body is silently replaced; `dumps` raises
no error, it is a total function producing the `flows`-wrapped mapping). -/
theorem dumps_duplicate_ids (flows : List FlowDocument) (k : String)
    (hdup : 2 ≤ countIds flows k) :
    YamlFlowsWriter.dumps flows =
      Yaml.map [(KEY_FLOWS, Yaml.map (dumpFlowsFrom [] flows))] ∧
    countKey (dumpFlowsFrom [] flows) k = 1 ∧
    ∃ g, lastFlowWith flows k = some g ∧ g.id = k ∧
      lookupKey (dumpFlowsFrom [] flows) k = some (Yaml.map g.body) := by
  obtain ⟨g, hg, hgid⟩ := lastFlowWith_of_countIds flows k (by omega)
  have hlk : lookupKey (dumpFlowsFrom [] flows) k = some (Yaml.map g.body) := by
    rw [lookupKey_dumpFlowsFrom flows [] k, hg]
  have hle : countKey (dumpFlowsFrom [] flows) k ≤ 1 :=
    countKey_dumpFlowsFrom_le flows [] k (by simp [countKey])
  have hge : 1 ≤ countKey (dumpFlowsFrom [] flows) k :=
    le_countKey_of_lookupKey _ _ _ hlk
  exact ⟨rfl, le_antisymm hle hge, g, hg, hgid, hlk⟩

/-- Two flows sharing the identifier `a` with different bodies. -/
def dupFlows : List FlowDocument :=
  [{ id := "a", body := [("x", Yaml.int 1)] },
   { id := "a", body := [("x", Yaml.int 2)] }]

/-- C10 witness: `dumps_duplicate_ids` on `dupFlows`; the surviving entry
carries the body of the second (later) flow. -/
theorem dumps_duplicate_ids_witness :
    countKey (dumpFlowsFrom [] dupFlows) "a" = 1 ∧
    lookupKey (dumpFlowsFrom [] dupFlows) "a" = some (Yaml.map [("x", Yaml.int 2)]) :=
  ⟨(dumps_duplicate_ids dupFlows "a" (by decide)).2.1, rfl⟩
